import Mathlib

/-!
Verification development for the freshmart-evolution repository.

The development shallowly embeds the algorithmic core of the repository:

* `calculateStats` — the sliding-window statistics function of
  src/frontend/src/App.jsx (lines 154-168).  JavaScript numbers are
  modelled as exact rationals; for the window sizes that occur, the
  float expression Math.floor(values.length * 0.99) coincides with
  natural-number floor division (values.length * 99) / 100, which is
  how the index is modelled.
* the scenario controller of src/frontend/src/App.jsx
  (handleScenarioChange, lines 231-284, and handleTrafficToggle):
  a scenario selection fixes the visibility flags and issues a toggle
  signal for exactly those traffic flags that differ from the
  scenario's target combination.
* the recursive category rollup query of src/mz_queries.sql
  (lines 124-140), embedded as the iteration-to-fixpoint semantics of
  WITH MUTUALLY RECURSIVE over bags: step n+1 re-evaluates the body,
  i.e. the direct per-category totals of shopping_cart unioned (bag
  union, UNION ALL) with the recursive SELECT evaluated on iteration n.
  The final `WHERE total::text <> 'Infinity'` guard is not modelled:
  rational arithmetic has no saturation value, and on every state
  considered here the iteration reaches its fixpoint with finite totals.
* the dynamic_pricing view of src/base_tables.sql (lines 82-173),
  its materialized twin mv_dynamic_pricing (lines 176-261), and the
  identical Materialize view of src/mz_queries.sql.  SQL NULLs of
  nullable columns are modelled with Option, NUMERIC values as exact
  rationals, and LEFT JOIN / GROUP BY / RANK() by explicit list
  combinators.
-/

/-! ## Statistics window (calculateStats, App.jsx 154-168) -/

structure Stats where
  max : ℚ
  avg : ℚ
  p99 : ℚ
deriving DecidableEq

/-- Math.max over a non-empty argument list (the empty case is unreachable
behind the length guard; 0 is used as a placeholder there). -/
def maxList : List ℚ → ℚ
  | [] => 0
  | v :: vs => vs.foldl Max.max v

/-- The ascending sort [...values].sort((a, b) => a - b). -/
def sortedAsc (values : List ℚ) : List ℚ :=
  values.insertionSort (fun a b => a ≤ b)

/-- Math.floor(n * 0.99) for the window sizes in scope. -/
def p99Index (n : ℕ) : ℕ := (n * 99) / 100

/-- calculateStats of App.jsx: empty windows yield all zeros; otherwise
max, average and the p99 sample are computed and scaled by 1000
("Convert to ms").  The JavaScript expression sortedValues[p99Index] || max
falls back to max both when the index is out of range (undefined) and when
the indexed sample is 0 (falsy). -/
def calculateStats (values : List ℚ) : Stats :=
  if values.length = 0 then ⟨0, 0, 0⟩
  else
    let sortedValues := sortedAsc values
    let mx := maxList values
    let avg := values.sum / (values.length : ℚ)
    let p99 :=
      match sortedValues.get? (p99Index values.length) with
      | some v => if v = 0 then mx else v
      | none => mx
    ⟨mx * 1000, avg * 1000, p99 * 1000⟩

/-! ## Scenario controller (App.jsx 190-204, 231-284, 555-595) -/

inductive Scenario
  | direct
  | batch
  | materialize
  | cqrs
deriving DecidableEq

inductive TrafficSource
  | postgres
  | materializeView
  | materialize
deriving DecidableEq

structure Flags where
  postgres : Bool
  materializeView : Bool
  materialize : Bool
deriving DecidableEq

/-- The POST /api/toggle-traffic round trip: the named source's traffic
flag is flipped and the synced state stored. -/
def applyToggle (t : Flags) : TrafficSource → Flags
  | .postgres => { t with postgres := !t.postgres }
  | .materializeView => { t with materializeView := !t.materializeView }
  | .materialize => { t with materialize := !t.materialize }

/-- The setScenarios target of each branch of handleScenarioChange. -/
def scenarioVisibility : Scenario → Flags
  | .direct => ⟨true, false, false⟩
  | .batch => ⟨true, true, false⟩
  | .materialize => ⟨true, true, true⟩
  | .cqrs => ⟨false, false, true⟩

/-- The conditional handleTrafficToggle calls of each branch of
handleScenarioChange, in source order, evaluated against the captured
trafficEnabled snapshot. -/
def scenarioSignals (s : Scenario) (t : Flags) : List TrafficSource :=
  match s with
  | .direct =>
      (if !t.postgres then [TrafficSource.postgres] else []) ++
      (if t.materializeView then [TrafficSource.materializeView] else []) ++
      (if t.materialize then [TrafficSource.materialize] else [])
  | .batch =>
      (if !t.postgres then [TrafficSource.postgres] else []) ++
      (if !t.materializeView then [TrafficSource.materializeView] else []) ++
      (if t.materialize then [TrafficSource.materialize] else [])
  | .materialize =>
      (if !t.postgres then [TrafficSource.postgres] else []) ++
      (if !t.materializeView then [TrafficSource.materializeView] else []) ++
      (if !t.materialize then [TrafficSource.materialize] else [])
  | .cqrs =>
      (if t.postgres then [TrafficSource.postgres] else []) ++
      (if t.materializeView then [TrafficSource.materializeView] else []) ++
      (if !t.materialize then [TrafficSource.materialize] else [])

structure AppState where
  currentScenario : Scenario
  scenarios : Flags
  trafficEnabled : Flags
deriving DecidableEq

/-- handleScenarioChange: record the scenario, set the visibility flags to
the scenario's fixed combination, and issue the toggle signals; each issued
toggle flips the corresponding traffic flag. -/
def handleScenarioChange (s : Scenario) (st : AppState) : AppState × List TrafficSource :=
  let sigs := scenarioSignals s st.trafficEnabled
  ({ currentScenario := s
     scenarios := scenarioVisibility s
     trafficEnabled := sigs.foldl applyToggle st.trafficEnabled }, sigs)

/-! ## Hierarchical rollup (mz_queries.sql 124-140)

The WITH MUTUALLY RECURSIVE binding is modelled by its iteration-to-fixpoint
semantics over bags: iteration 0 is empty, and iteration n+1 re-evaluates the
body — the direct per-category totals of shopping_cart, UNION ALL the
recursive SELECT applied to iteration n.  A state at which iteration n+1
equals iteration n as a bag is the fixpoint the engine returns.  The final
`WHERE total::text <> 'Infinity'` guard is not modelled: rationals have no
saturation value and on every state considered the fixpoint totals are
finite. -/

structure Category where
  category_id : ℤ
  category_name : String
  parent_id : Option ℤ
deriving DecidableEq

structure CartItem where
  product_id : ℤ
  product_name : String
  category_id : ℤ
  price : ℚ
deriving DecidableEq

structure CartDB where
  categories : List Category
  shopping_cart : List CartItem
deriving DecidableEq

/-- The non-recursive branch:
SELECT category_id, sum(price) AS total FROM shopping_cart GROUP BY category_id. -/
def directTotals (db : CartDB) : List (ℤ × ℚ) :=
  ((db.shopping_cart.map (fun it => it.category_id)).dedup).map
    (fun cid => (cid, ((db.shopping_cart.filter (fun it => it.category_id = cid)).map
      (fun it => it.price)).sum))

/-- The category records declaring cid as their parent. -/
def childRecords (db : CartDB) (cid : ℤ) : List Category :=
  db.categories.filter (fun c => c.parent_id = some cid)

/-- The join of the recursive branch:
FROM rollup AS r JOIN categories AS c ON r.category_id = c.parent_id.
Each rollup row is repeated once per category record whose parent_id equals
the row's category_id; the retained columns (r.category_id = c.parent_id,
r.total) are those the surrounding SELECT consumes. -/
def stepJoin (db : CartDB) (r : List (ℤ × ℚ)) : List (ℤ × ℚ) :=
  r.flatMap (fun row => (childRecords db row.fst).map (fun _ => row))

/-- The recursive branch:
SELECT parent_id AS category_id, sum(total) AS total FROM rollup AS r
JOIN categories AS c ON r.category_id = c.parent_id GROUP BY parent_id. -/
def stepRollup (db : CartDB) (r : List (ℤ × ℚ)) : List (ℤ × ℚ) :=
  (((stepJoin db r).map Prod.fst).dedup).map
    (fun x => (x, (((stepJoin db r).filter (fun row => row.fst = x)).map Prod.snd).sum))

/-- Iterates of the recursive binding rollup. -/
def rollupIter (db : CartDB) : ℕ → List (ℤ × ℚ)
  | 0 => []
  | n + 1 => directTotals db ++ stepRollup db (rollupIter db n)

/-- Iteration n is the fixpoint of the recursive binding (bag equality). -/
def rollupFixedAt (db : CartDB) (n : ℕ) : Prop :=
  Multiset.ofList (rollupIter db (n + 1)) = Multiset.ofList (rollupIter db n)

structure RollupRow where
  category_id : ℤ
  category_name : String
  total : ℚ
deriving DecidableEq

/-- The final query:
SELECT category_id, category_name, total FROM rollup
INNER JOIN categories USING (category_id). -/
def rollupOutput (db : CartDB) (r : List (ℤ × ℚ)) : List RollupRow :=
  r.flatMap (fun row => (db.categories.filter (fun c => c.category_id = row.fst)).map
    (fun c => ⟨row.fst, c.category_name, row.snd⟩))

/-- Replaces (every copy of) the category record c by the same record with a
null parent — the explicit root version of c. -/
def reparentCats (l : List Category) (c : Category) : List Category :=
  l.map (fun d => if d = c then { d with parent_id := none } else d)

/-- The same database with the category record c turned into a root. -/
def reparent (db : CartDB) (c : Category) : CartDB :=
  { db with categories := reparentCats db.categories c }

/-- A depth-3 category chain with a single cart item in the leaf category. -/
def c2db : CartDB :=
  { categories := [⟨1, "produce", none⟩, ⟨2, "fruit", some 1⟩, ⟨3, "apples", some 2⟩]
    shopping_cart := [⟨7, "fuji apple", 3, 10⟩] }

/-- A category whose declared parent id 99 references no category, with one
cart item attached to it. -/
def c5orphan : CartDB :=
  { categories := [⟨2, "orphan", some 99⟩]
    shopping_cart := [⟨7, "apple", 2, 10⟩] }

/-! ## Dynamic pricing (base_tables.sql 82-173, mz_queries.sql 15-105)

The dynamic_pricing view is embedded CTE by CTE.  NUMERIC values are exact
rationals and nullable columns are Option.  GROUP BY is modelled as a map
over the deduplicated key list, joins as filters over the joined list (a
LEFT JOIN contributes none when no row matches, and one Option per matching
row otherwise), and RANK() OVER (ORDER BY c DESC) as one plus the number of
rows that strictly precede the row (rows with strictly greater c) — ties
share a rank.  ORDER BY sale_date DESC LIMIT 10 is modelled by a stable
descending sort (ties keep input order, one of the orders SQL may return).
The high_demand_products CTE is omitted: it is LEFT JOINed on the unique
per-product key, so it cannot change row multiplicity, and its only
projected column avg_sale_price does not feed adjusted_price; the
last_update_time output column (a passthrough of products) is likewise
dropped.  SQL NULL propagation matters in one place: when a product has no
recent_prices row, the demand-multiplier CASE evaluates to NULL and so does
adjusted_price — adjusted_price is therefore an Option.  ILIKE
percent-cheap-percent is a case-insensitive substring match, modelled by a
character-level matcher over lowercased characters. -/

structure Product where
  product_id : ℤ
  product_name : String
  base_price : ℚ
  category_id : ℤ
  supplier_id : ℤ
  available : Bool
deriving DecidableEq

structure Sale where
  sale_id : ℤ
  product_id : ℤ
  sale_price : ℚ
  sale_date : ℤ
  price : ℚ
deriving DecidableEq

structure Promotion where
  promotion_id : ℤ
  product_id : ℤ
  promotion_discount : ℚ
  active : Bool
deriving DecidableEq

structure InventoryRow where
  inventory_id : ℤ
  product_id : ℤ
  stock : ℤ
  warehouse_id : ℤ
deriving DecidableEq

structure PriceDB where
  products : List Product
  sales : List Sale
  promotions : List Promotion
  inventory : List InventoryRow
deriving DecidableEq

def salesOf (db : PriceDB) (pid : ℤ) : List Sale :=
  db.sales.filter (fun s => s.product_id = pid)

def recentSales (db : PriceDB) (pid : ℤ) : List Sale :=
  ((salesOf db pid).insertionSort (fun a b => b.sale_date ≤ a.sale_date)).take 10

def salesPids (db : PriceDB) : List ℤ :=
  (db.sales.map (fun s => s.product_id)).dedup

def recentPrices (db : PriceDB) : List (ℤ × ℚ) :=
  (salesPids db).map (fun pid =>
    (pid, ((recentSales db pid).map (fun s => s.price)).sum / ((recentSales db pid).length : ℚ)))

def promoJoin (db : PriceDB) : List (ℤ × ℚ) :=
  db.promotions.flatMap (fun pr =>
    if pr.active then
      (db.products.filter (fun p => p.product_id = pr.product_id)).map
        (fun p => (p.product_id, pr.promotion_discount))
    else [])

def minimumOf : List ℚ → ℚ
  | [] => 0
  | x :: xs => xs.foldl Min.min x

def promotionEffect (db : PriceDB) : List (ℤ × ℚ) :=
  ((promoJoin db).map Prod.fst).dedup.map (fun pid =>
    (pid, minimumOf (((promoJoin db).filter (fun r => r.fst = pid)).map Prod.snd)))

def popJoin (db : PriceDB) : List (ℤ × ℤ) :=
  db.sales.flatMap (fun s =>
    (db.products.filter (fun p => p.product_id = s.product_id)).map
      (fun p => (s.product_id, p.category_id)))

def popKeys (db : PriceDB) : List (ℤ × ℤ) := (popJoin db).dedup

def popCount (db : PriceDB) (k : ℤ × ℤ) : ℕ :=
  ((popJoin db).filter (fun r => r = k)).length

def popRank (db : PriceDB) (k : ℤ × ℤ) : ℕ :=
  1 + ((popKeys db).filter (fun q => q.snd = k.snd ∧ popCount db k < popCount db q)).length

structure PopRow where
  product_id : ℤ
  category_id : ℤ
  sale_count : ℕ
  popularity_rank : ℕ
deriving DecidableEq

def popularityScore (db : PriceDB) : List PopRow :=
  (popKeys db).map (fun k => ⟨k.fst, k.snd, popCount db k, popRank db k⟩)

def invPids (db : PriceDB) : List ℤ :=
  (db.inventory.map (fun i => i.product_id)).dedup

def totalStock (db : PriceDB) (pid : ℤ) : ℤ :=
  ((db.inventory.filter (fun i => i.product_id = pid)).map (fun i => i.stock)).sum

def stockRank (db : PriceDB) (pid : ℤ) : ℕ :=
  1 + ((invPids db).filter (fun q => totalStock db pid < totalStock db q)).length

def inventoryStatus (db : PriceDB) : List (ℤ × ℕ) :=
  (invPids db).map (fun pid => (pid, stockRank db pid))

def startsWithChars : List Char → List Char → Bool
  | [], _ => true
  | _ :: _, [] => false
  | p :: ps, c :: cs => p = c && startsWithChars ps cs

def hasSubChars (pat : List Char) : List Char → Bool
  | [] => pat.isEmpty
  | c :: cs => startsWithChars pat (c :: cs) || hasSubChars pat cs

def nameHasCheap (s : String) : Bool :=
  hasSubChars "cheap".toList (s.toList.map Char.toLower)

structure DPRow where
  product_id : ℤ
  base_price : ℚ
  popularity_adjustment : ℚ
  avg_price : Option ℚ
  promotion_discount : ℚ
  stock_adjustment : ℚ
  demand_multiplier : Option ℚ
  additional_discount : ℚ
deriving DecidableEq

def leftJoinRows {α : Type} : List α → List (Option α)
  | [] => [none]
  | x :: xs => (x :: xs).map some

def mkDPRow (p : Product) (pop : PopRow) (rp : Option (ℤ × ℚ)) (pe : Option (ℤ × ℚ))
    (inv : Option (ℤ × ℕ)) : DPRow :=
  { product_id := p.product_id
    base_price := p.base_price
    popularity_adjustment :=
      if pop.popularity_rank ≤ 3 then 12/10
      else if 4 ≤ pop.popularity_rank ∧ pop.popularity_rank ≤ 10 then 11/10
      else 9/10
    avg_price := rp.map Prod.snd
    promotion_discount :=
      match pe with
      | some r => 1 - r.snd / 100
      | none => 1
    stock_adjustment :=
      match inv with
      | some r => if r.snd ≤ 3 then 11/10 else if 4 ≤ r.snd ∧ r.snd ≤ 10 then 21/20 else 1
      | none => 1
    demand_multiplier :=
      match rp with
      | some r =>
          some (if r.snd < p.base_price then 1 + (p.base_price - r.snd) / r.snd
                else 1 - (r.snd - p.base_price) / r.snd)
      | none => none
    additional_discount := if nameHasCheap p.product_name then 8/10 else 1 }

def dpRows (db : PriceDB) : List DPRow :=
  db.products.flatMap (fun p =>
    ((popularityScore db).filter (fun pop => pop.product_id = p.product_id)).flatMap (fun pop =>
      (leftJoinRows ((recentPrices db).filter (fun x => x.fst = p.product_id))).flatMap (fun rp =>
        (leftJoinRows ((promotionEffect db).filter (fun x => x.fst = p.product_id))).flatMap (fun pe =>
          (leftJoinRows ((inventoryStatus db).filter (fun x => x.fst = p.product_id))).map (fun inv =>
            mkDPRow p pop rp pe inv)))))

structure PriceRow where
  product_id : ℤ
  adjusted_price : Option ℚ
deriving DecidableEq

def dpAdjusted (r : DPRow) : Option ℚ :=
  r.demand_multiplier.map (fun dm =>
    r.base_price * r.popularity_adjustment * r.promotion_discount * r.stock_adjustment * dm *
      r.additional_discount)

def dynamic_pricing (db : PriceDB) : List PriceRow :=
  (dpRows db).flatMap (fun r =>
    (db.products.filter (fun p => p.product_id = r.product_id)).map
      (fun _ => ⟨r.product_id, dpAdjusted r⟩))

/-! ## The five adjustment factors as standalone per-item functions

These recompute, directly from the database state, the five roles the
claims assign to the formula; the theorems below connect the view's joined
pipeline to them. -/

def meanRecentPrice (db : PriceDB) (pid : ℤ) : Option ℚ :=
  if salesOf db pid = [] then none
  else some (((recentSales db pid).map (fun s => s.price)).sum / ((recentSales db pid).length : ℚ))

def popularityFactor (db : PriceDB) (p : Product) : ℚ :=
  if 1 ≤ popRank db (p.product_id, p.category_id) ∧ popRank db (p.product_id, p.category_id) ≤ 3 then 12/10
  else if 4 ≤ popRank db (p.product_id, p.category_id) ∧ popRank db (p.product_id, p.category_id) ≤ 10 then 11/10
  else 9/10

def activeDiscounts (db : PriceDB) (pid : ℤ) : List ℚ :=
  (db.promotions.filter (fun pr => pr.active ∧ pr.product_id = pid)).map
    (fun pr => pr.promotion_discount)

def promotionFactor (db : PriceDB) (pid : ℤ) : ℚ :=
  if activeDiscounts db pid = [] then 1 else 1 - minimumOf (activeDiscounts db pid) / 100

def stockFactor (db : PriceDB) (pid : ℤ) : ℚ :=
  if db.inventory.filter (fun i => i.product_id = pid) = [] then 1
  else if 1 ≤ stockRank db pid ∧ stockRank db pid ≤ 3 then 11/10
  else if 4 ≤ stockRank db pid ∧ stockRank db pid ≤ 10 then 21/20
  else 1

def demandFactor (db : PriceDB) (p : Product) : ℚ :=
  match meanRecentPrice db p.product_id with
  | none => 1
  | some m =>
      if m < p.base_price then 1 + (p.base_price - m) / m else 1 - (m - p.base_price) / m

def overrideFactor (p : Product) : ℚ :=
  if nameHasCheap p.product_name then 8/10 else 1

/-! ## The materialized view mv_dynamic_pricing (base_tables.sql 176-261)

A literal second embedding of the materialized view's query text, which
repeats the view's query; every CTE is copied under an mv name. -/

def mvSalesOf (db : PriceDB) (pid : ℤ) : List Sale :=
  db.sales.filter (fun s => s.product_id = pid)

def mvRecentSales (db : PriceDB) (pid : ℤ) : List Sale :=
  ((mvSalesOf db pid).insertionSort (fun a b => b.sale_date ≤ a.sale_date)).take 10

def mvSalesPids (db : PriceDB) : List ℤ :=
  (db.sales.map (fun s => s.product_id)).dedup

def mvRecentPrices (db : PriceDB) : List (ℤ × ℚ) :=
  (mvSalesPids db).map (fun pid =>
    (pid, ((mvRecentSales db pid).map (fun s => s.price)).sum / ((mvRecentSales db pid).length : ℚ)))

def mvPromoJoin (db : PriceDB) : List (ℤ × ℚ) :=
  db.promotions.flatMap (fun pr =>
    if pr.active then
      (db.products.filter (fun p => p.product_id = pr.product_id)).map
        (fun p => (p.product_id, pr.promotion_discount))
    else [])

def mvPromotionEffect (db : PriceDB) : List (ℤ × ℚ) :=
  ((mvPromoJoin db).map Prod.fst).dedup.map (fun pid =>
    (pid, minimumOf (((mvPromoJoin db).filter (fun r => r.fst = pid)).map Prod.snd)))

def mvPopJoin (db : PriceDB) : List (ℤ × ℤ) :=
  db.sales.flatMap (fun s =>
    (db.products.filter (fun p => p.product_id = s.product_id)).map
      (fun p => (s.product_id, p.category_id)))

def mvPopKeys (db : PriceDB) : List (ℤ × ℤ) := (mvPopJoin db).dedup

def mvPopCount (db : PriceDB) (k : ℤ × ℤ) : ℕ :=
  ((mvPopJoin db).filter (fun r => r = k)).length

def mvPopRank (db : PriceDB) (k : ℤ × ℤ) : ℕ :=
  1 + ((mvPopKeys db).filter (fun q => q.snd = k.snd ∧ mvPopCount db k < mvPopCount db q)).length

def mvPopularityScore (db : PriceDB) : List PopRow :=
  (mvPopKeys db).map (fun k => ⟨k.fst, k.snd, mvPopCount db k, mvPopRank db k⟩)

def mvInvPids (db : PriceDB) : List ℤ :=
  (db.inventory.map (fun i => i.product_id)).dedup

def mvTotalStock (db : PriceDB) (pid : ℤ) : ℤ :=
  ((db.inventory.filter (fun i => i.product_id = pid)).map (fun i => i.stock)).sum

def mvStockRank (db : PriceDB) (pid : ℤ) : ℕ :=
  1 + ((mvInvPids db).filter (fun q => mvTotalStock db pid < mvTotalStock db q)).length

def mvInventoryStatus (db : PriceDB) : List (ℤ × ℕ) :=
  (mvInvPids db).map (fun pid => (pid, mvStockRank db pid))

def mvMkDPRow (p : Product) (pop : PopRow) (rp : Option (ℤ × ℚ)) (pe : Option (ℤ × ℚ))
    (inv : Option (ℤ × ℕ)) : DPRow :=
  { product_id := p.product_id
    base_price := p.base_price
    popularity_adjustment :=
      if pop.popularity_rank ≤ 3 then 12/10
      else if 4 ≤ pop.popularity_rank ∧ pop.popularity_rank ≤ 10 then 11/10
      else 9/10
    avg_price := rp.map Prod.snd
    promotion_discount :=
      match pe with
      | some r => 1 - r.snd / 100
      | none => 1
    stock_adjustment :=
      match inv with
      | some r => if r.snd ≤ 3 then 11/10 else if 4 ≤ r.snd ∧ r.snd ≤ 10 then 21/20 else 1
      | none => 1
    demand_multiplier :=
      match rp with
      | some r =>
          some (if r.snd < p.base_price then 1 + (p.base_price - r.snd) / r.snd
                else 1 - (r.snd - p.base_price) / r.snd)
      | none => none
    additional_discount := if nameHasCheap p.product_name then 8/10 else 1 }

def mvDpRows (db : PriceDB) : List DPRow :=
  db.products.flatMap (fun p =>
    ((mvPopularityScore db).filter (fun pop => pop.product_id = p.product_id)).flatMap (fun pop =>
      (leftJoinRows ((mvRecentPrices db).filter (fun x => x.fst = p.product_id))).flatMap (fun rp =>
        (leftJoinRows ((mvPromotionEffect db).filter (fun x => x.fst = p.product_id))).flatMap (fun pe =>
          (leftJoinRows ((mvInventoryStatus db).filter (fun x => x.fst = p.product_id))).map (fun inv =>
            mvMkDPRow p pop rp pe inv)))))

def mvDpAdjusted (r : DPRow) : Option ℚ :=
  r.demand_multiplier.map (fun dm =>
    r.base_price * r.popularity_adjustment * r.promotion_discount * r.stock_adjustment * dm *
      r.additional_discount)

def mv_dynamic_pricing (db : PriceDB) : List PriceRow :=
  (mvDpRows db).flatMap (fun r =>
    (db.products.filter (fun p => p.product_id = r.product_id)).map
      (fun _ => ⟨r.product_id, mvDpAdjusted r⟩))

/-- A product with one sale at its own base price: in the view with
popularity rank 1, no promotion, no inventory, demand multiplier 1. -/
def c1db : PriceDB :=
  { products := [⟨1, "Apple", 100, 1, 1, true⟩]
    sales := [⟨1, 1, 100, 0, 100⟩]
    promotions := []
    inventory := [] }

/-- The C6 scenario: base value 100, one active 10 percent promotion, stock
rank 5 (four other product ids hold more stock), no sales history, no
override pattern in the name. -/
def c6db : PriceDB :=
  { products := [⟨1, "Apple", 100, 1, 1, true⟩]
    sales := []
    promotions := [⟨1, 1, 10, true⟩]
    inventory := [⟨1, 1, 10, 1⟩, ⟨2, 2, 50, 1⟩, ⟨3, 3, 50, 1⟩, ⟨4, 4, 50, 1⟩, ⟨5, 5, 50, 1⟩] }

/-- c6db plus a second product that does have a sale, so the view output is
non-empty while product 1 still has no sales history. -/
def c6wdb : PriceDB :=
  { products := [⟨1, "Apple", 100, 1, 1, true⟩, ⟨2, "Banana", 50, 1, 1, true⟩]
    sales := [⟨1, 2, 50, 0, 50⟩]
    promotions := [⟨1, 1, 10, true⟩]
    inventory := [⟨1, 1, 10, 1⟩, ⟨2, 2, 50, 1⟩, ⟨3, 3, 50, 1⟩, ⟨4, 4, 50, 1⟩, ⟨5, 5, 50, 1⟩] }

/-- A product with one sale and an active promotion whose discount is 200
percent, which the schema admits (NUMERIC(10,2) with no CHECK constraint). -/
def c7db : PriceDB :=
  { products := [⟨1, "Apple", 100, 1, 1, true⟩]
    sales := [⟨1, 1, 100, 0, 100⟩]
    promotions := [⟨1, 1, 200, true⟩]
    inventory := [] }

/-! ## Concrete sample windows for the statistics claims -/

/-- A window of 100 samples with the distinct values 1 through 100. -/
def window100 : List ℚ :=
  [1, 2, 3, 4, 5, 6, 7, 8, 9, 10, 11, 12, 13, 14, 15, 16, 17, 18, 19, 20,
   21, 22, 23, 24, 25, 26, 27, 28, 29, 30, 31, 32, 33, 34, 35, 36, 37, 38, 39, 40,
   41, 42, 43, 44, 45, 46, 47, 48, 49, 50, 51, 52, 53, 54, 55, 56, 57, 58, 59, 60,
   61, 62, 63, 64, 65, 66, 67, 68, 69, 70, 71, 72, 73, 74, 75, 76, 77, 78, 79, 80,
   81, 82, 83, 84, 85, 86, 87, 88, 89, 90, 91, 92, 93, 94, 95, 96, 97, 98, 99, 100]

/-- A window of 100 zero samples followed by one positive sample. -/
def window101 : List ℚ := (List.replicate 100 (0 : ℚ)) ++ [5]

/-! ## Theorems -/

theorem le_foldl_max (vs : List ℚ) (a : ℚ) :
    a ≤ vs.foldl Max.max a ∧ ∀ x ∈ vs, x ≤ vs.foldl Max.max a := by
  induction vs generalizing a with
  | nil => exact ⟨le_refl a, by intro x hx; cases hx⟩
  | cons w vs ih =>
    refine ⟨le_trans (le_max_left a w) (ih (Max.max a w)).1, ?_⟩
    intro x hx
    rcases List.mem_cons.1 hx with h | h
    · exact le_trans (by rw [h]; exact le_max_right a w) (ih (Max.max a w)).1
    · exact (ih (Max.max a w)).2 x h

theorem le_maxList {x : ℚ} {l : List ℚ} (hx : x ∈ l) : x ≤ maxList l := by
  cases l with
  | nil => cases hx
  | cons v vs =>
    rcases List.mem_cons.1 hx with h | h
    · exact h ▸ (le_foldl_max vs v).1
    · exact (le_foldl_max vs v).2 x h

theorem mem_of_mem_stepJoin {db : CartDB} {r : List (ℤ × ℚ)} {row : ℤ × ℚ}
    (h : row ∈ stepJoin db r) : row ∈ r := by
  rw [stepJoin] at h
  obtain ⟨row0, h0, hm⟩ := List.mem_flatMap.1 h
  obtain ⟨d, hd, he⟩ := List.mem_map.1 hm
  exact he ▸ h0

theorem mem_keys_stepRollup {db : CartDB} {r : List (ℤ × ℚ)} {x : ℤ}
    (h : x ∈ (stepRollup db r).map Prod.fst) : x ∈ r.map Prod.fst := by
  rw [stepRollup, List.map_map] at h
  obtain ⟨y, hy, he⟩ := List.mem_map.1 h
  have hxy : y = x := he
  subst hxy
  have hk : y ∈ (stepJoin db r).map Prod.fst := List.mem_dedup.1 hy
  obtain ⟨row, hrow, hfst⟩ := List.mem_map.1 hk
  exact List.mem_map.2 ⟨row, mem_of_mem_stepJoin hrow, hfst⟩

theorem keys_rollupIter_subset (db : CartDB) (n : ℕ) (x : ℤ)
    (hx : x ∈ (rollupIter db n).map Prod.fst) :
    x ∈ db.shopping_cart.map (fun it => it.category_id) := by
  induction n with
  | zero => cases hx
  | succ n ih =>
    rw [rollupIter, List.map_append] at hx
    rcases List.mem_append.1 hx with h | h
    · rw [directTotals, List.map_map] at h
      obtain ⟨cid, hcid, heq⟩ := List.mem_map.1 h
      exact heq ▸ List.mem_dedup.1 hcid
    · exact ih (mem_keys_stepRollup h)

theorem filter_parent_reparent (l : List Category) (c : Category) (p x : ℤ)
    (hp : c.parent_id = some p) (hx : ¬ x = p) :
    (l.map (fun d => if d = c then { d with parent_id := none } else d)).filter
      (fun d => d.parent_id = some x) =
    l.filter (fun d => d.parent_id = some x) := by
  induction l with
  | nil => rfl
  | cons d l ih =>
    rw [List.map_cons]
    by_cases hdc : d = c
    · subst hdc
      have h2 : ¬ d.parent_id = some x := by
        rw [hp]
        intro h
        exact hx (Option.some_injective ℤ h).symm
      rw [if_pos rfl, List.filter_cons, List.filter_cons]
      have h1 : ¬ ({ d with parent_id := none } : Category).parent_id = some x := by simp
      simp only [h1, h2, decide_False, Bool.false_eq_true, if_false]
      exact ih
    · rw [if_neg hdc, List.filter_cons, List.filter_cons]
      by_cases hdx : d.parent_id = some x
      · simp only [hdx, decide_True, if_true]
        rw [ih]
      · simp only [hdx, decide_False, Bool.false_eq_true, if_false]
        exact ih

theorem childRecords_reparent (db : CartDB) (c : Category) (p x : ℤ)
    (hp : c.parent_id = some p) (hx : ¬ x = p) :
    childRecords (reparent db c) x = childRecords db x := by
  simp only [childRecords, reparent, reparentCats]
  exact filter_parent_reparent db.categories c p x hp hx

theorem flatMap_congr_mem {α β : Type} {l : List α} {f g : α → List β}
    (h : ∀ a ∈ l, f a = g a) : l.flatMap f = l.flatMap g := by
  induction l with
  | nil => rfl
  | cons a l ih =>
    rw [List.flatMap_cons, List.flatMap_cons, h a (List.mem_cons_self a l),
      ih (fun b hb => h b (List.mem_cons_of_mem a hb))]

theorem stepJoin_reparent (db : CartDB) (c : Category) (p : ℤ) (r : List (ℤ × ℚ))
    (hp : c.parent_id = some p) (hkeys : ∀ x ∈ r.map Prod.fst, ¬ x = p) :
    stepJoin (reparent db c) r = stepJoin db r := by
  rw [stepJoin, stepJoin]
  refine flatMap_congr_mem ?_
  intro row hrow
  rw [childRecords_reparent db c p row.fst hp (hkeys row.fst (List.mem_map.2 ⟨row, hrow, rfl⟩))]

theorem stepRollup_reparent (db : CartDB) (c : Category) (p : ℤ) (r : List (ℤ × ℚ))
    (hp : c.parent_id = some p) (hkeys : ∀ x ∈ r.map Prod.fst, ¬ x = p) :
    stepRollup (reparent db c) r = stepRollup db r := by
  rw [stepRollup, stepRollup, stepJoin_reparent db c p r hp hkeys]

theorem rollupIter_reparent (db : CartDB) (c : Category) (p : ℤ)
    (hp : c.parent_id = some p)
    (hcart : ∀ it ∈ db.shopping_cart, ¬ it.category_id = p) :
    ∀ n, rollupIter (reparent db c) n = rollupIter db n := by
  intro n
  induction n with
  | zero => rfl
  | succ n ih =>
    have hkeys : ∀ x ∈ (rollupIter db n).map Prod.fst, ¬ x = p := by
      intro x hx hxp
      obtain ⟨it, hit, he⟩ := List.mem_map.1 (keys_rollupIter_subset db n x hx)
      exact hcart it hit (by rw [he, hxp])
    have hd : directTotals (reparent db c) = directTotals db := rfl
    simp only [rollupIter, ih, hd, stepRollup_reparent db c p (rollupIter db n) hp hkeys]

theorem filterName_reparent (l : List Category) (c : Category) (k a : ℤ) (t : ℚ) :
    ((l.map (fun d => if d = c then { d with parent_id := none } else d)).filter
      (fun d => d.category_id = k)).map (fun d => (⟨a, d.category_name, t⟩ : RollupRow)) =
    (l.filter (fun d => d.category_id = k)).map (fun d => (⟨a, d.category_name, t⟩ : RollupRow)) := by
  induction l with
  | nil => rfl
  | cons d l ih =>
    rw [List.map_cons]
    by_cases hdc : d = c
    · subst hdc
      rw [if_pos rfl, List.filter_cons, List.filter_cons]
      by_cases hk : d.category_id = k
      · have hk2 : ({ d with parent_id := none } : Category).category_id = k := hk
        simp only [hk, hk2, decide_True, if_true, List.map_cons, ih]
      · have hk2 : ¬ ({ d with parent_id := none } : Category).category_id = k := hk
        simp only [hk, hk2, decide_False, Bool.false_eq_true, if_false, ih]
    · rw [if_neg hdc, List.filter_cons, List.filter_cons]
      by_cases hk : d.category_id = k
      · simp only [hk, decide_True, if_true, List.map_cons, ih]
      · simp only [hk, decide_False, Bool.false_eq_true, if_false, ih]

theorem rollupOutput_reparent (db : CartDB) (c : Category) (r : List (ℤ × ℚ)) :
    rollupOutput (reparent db c) r = rollupOutput db r := by
  rw [rollupOutput, rollupOutput]
  refine flatMap_congr_mem ?_
  intro row hrow
  have h := filterName_reparent db.categories c row.fst row.fst row.snd
  simpa [reparent, reparentCats] using h

/-- C2: evaluation of the rollup at a depth-3 category chain with one item in
the leaf category.  The recursive binding is already at its fixpoint after one
iteration, and the output contains only the leaf category's row: the two
ancestor categories, both of which reach the item through descendants, are
absent, so neither completeness nor the subtree-sum invariant holds — the
recursive branch joins a row's own category to its child records
(r.category_id = c.parent_id) and re-emits it at the same key, so totals are
never propagated to parents. -/
theorem C2_rollup_ancestors_missing :
    rollupFixedAt c2db 1 ∧
    rollupOutput c2db (rollupIter c2db 1) = [⟨3, "apples", 10⟩] := by
  constructor
  · norm_num [rollupFixedAt, rollupIter, directTotals, stepRollup, stepJoin, childRecords,
      c2db, List.dedup_cons_of_not_mem, List.dedup_nil]
    decide
  · norm_num [rollupOutput, rollupIter, directTotals, stepRollup, stepJoin, childRecords,
      c2db, List.dedup_cons_of_not_mem, List.dedup_nil]

/-- C5 counterexample: on an input whose single category declares the
non-existent parent 99, the rollup reaches its fixpoint and emits the orphan's
direct-subtotal row like any other row — no rejection, no reported integrity
error (the query has no error output at all) — and the result coincides with
the output for the same data with the orphan reparented to root. -/
theorem C5_no_orphan_rejection :
    rollupFixedAt c5orphan 1 ∧
    rollupOutput c5orphan (rollupIter c5orphan 1) = [⟨2, "orphan", 10⟩] ∧
    rollupOutput (reparent c5orphan ⟨2, "orphan", some 99⟩)
        (rollupIter (reparent c5orphan ⟨2, "orphan", some 99⟩) 1) =
      rollupOutput c5orphan (rollupIter c5orphan 1) := by
  refine ⟨?_, ?_, ?_⟩
  · norm_num [rollupFixedAt, rollupIter, directTotals, stepRollup, stepJoin, childRecords,
      c5orphan, List.dedup_cons_of_not_mem, List.dedup_nil]
  · norm_num [rollupOutput, rollupIter, directTotals, stepRollup, stepJoin, childRecords,
      c5orphan, List.dedup_cons_of_not_mem, List.dedup_nil]
  · norm_num [rollupOutput, rollupIter, directTotals, stepRollup, stepJoin, childRecords,
      reparent, reparentCats, c5orphan, List.dedup_cons_of_not_mem, List.dedup_nil]

/-- C5 amended: the rollup performs no orphan integrity check — for any
category record whose declared parent id p labels no category and no cart
item, every iterate and the joined output of the rollup coincide with those
for the same database in which that record is made a root (parent null); the
orphan is silently treated exactly as a root and nothing is reported. -/
theorem C5_orphan_treated_as_root (db : CartDB) (c : Category) (p : ℤ)
    (hp : c.parent_id = some p)
    (horphan : ∀ d ∈ db.categories, ¬ d.category_id = p)
    (hcart : ∀ it ∈ db.shopping_cart, ¬ it.category_id = p) (n : ℕ) :
    rollupIter (reparent db c) n = rollupIter db n ∧
    rollupOutput (reparent db c) (rollupIter (reparent db c) n) =
      rollupOutput db (rollupIter db n) := by
  refine ⟨rollupIter_reparent db c p hp hcart n, ?_⟩
  rw [rollupIter_reparent db c p hp hcart n, rollupOutput_reparent]

/-- C5 amended, witness at the concrete orphan database. -/
theorem C5_orphan_treated_as_root_witness :
    rollupIter (reparent c5orphan ⟨2, "orphan", some 99⟩) 1 = rollupIter c5orphan 1 ∧
    rollupOutput (reparent c5orphan ⟨2, "orphan", some 99⟩)
        (rollupIter (reparent c5orphan ⟨2, "orphan", some 99⟩) 1) =
      rollupOutput c5orphan (rollupIter c5orphan 1) :=
  C5_orphan_treated_as_root c5orphan ⟨2, "orphan", some 99⟩ 99 rfl (by decide) (by decide) 1

/-- C8: selecting the already-active scenario is a no-op — from any state,
applying a scenario once yields a state from which re-applying the same
scenario issues no toggle signals and changes nothing; moreover the
visibility and traffic flags after a scenario change are the fixed
combination determined by the scenario alone. -/
theorem C8_scenario_change_idempotent (s : Scenario) (st : AppState) :
    handleScenarioChange s (handleScenarioChange s st).1 = ((handleScenarioChange s st).1, []) ∧
    (handleScenarioChange s st).1.scenarios = scenarioVisibility s ∧
    (handleScenarioChange s st).1.trafficEnabled = scenarioVisibility s := by
  obtain ⟨c, v, ⟨p, m, z⟩⟩ := st
  cases s <;> cases p <;> cases m <;> cases z <;> exact ⟨rfl, rfl, rfl⟩

set_option maxRecDepth 8000 in
theorem sortedAsc_window100 : sortedAsc window100 = window100 := by decide

/-- C3 counterexample: for the window of 100 samples with the distinct values
1 through 100, the p99 statistic returned by calculateStats corresponds to the
100th value (100, reported as 100000 after the function's ms scaling), not to
the 99th value 99 that the claim asserts (under either unit reading). -/
theorem C3_p99_hundred_window_counterexample :
    (calculateStats window100).p99 = 100000 ∧ (calculateStats window100).p99 ≠ 99000 ∧
    (calculateStats window100).p99 ≠ 99 := by
  have hget : (sortedAsc window100).get? (p99Index window100.length) = some 100 := by
    rw [sortedAsc_window100]; decide
  have hmain : (calculateStats window100).p99 = 100000 := by
    simp only [calculateStats, if_neg (show ¬ window100.length = 0 by decide), hget]
    norm_num
  refine ⟨hmain, ?_, ?_⟩ <;> rw [hmain] <;> norm_num

/-- C3 amended: for every non-empty window, the p99 statistic is the element
at index floor(0.99 × N) of the ascending sort of the samples (the unique
sorted permutation), scaled by the function's uniform ms factor 1000, with the
fallback to the window maximum firing when that element is zero or the index
is out of range; at index floor(0.99 × 100) = 99 of the 1–100 window this
element is the 100th value, 100. -/
theorem C3_p99_sorted_index (values : List ℚ) (h : values ≠ []) :
    ∃ s : List ℚ, s.Perm values ∧ s.Sorted (fun a b => a ≤ b) ∧
      (calculateStats values).p99 =
        1000 * (match s.get? (p99Index values.length) with
                | some v => if v = 0 then maxList values else v
                | none => maxList values) := by
  refine ⟨sortedAsc values, List.perm_insertionSort _ values, List.sorted_insertionSort _ values, ?_⟩
  simp only [calculateStats, if_neg (show ¬ values.length = 0 by simpa using h), sortedAsc]
  exact mul_comm _ 1000

/-- C3 amended, witness at the 1–100 window. -/
theorem C3_p99_sorted_index_witness :
    ∃ s : List ℚ, s.Perm window100 ∧ s.Sorted (fun a b => a ≤ b) ∧
      (calculateStats window100).p99 =
        1000 * (match s.get? (p99Index window100.length) with
                | some v => if v = 0 then maxList window100 else v
                | none => maxList window100) :=
  C3_p99_sorted_index window100 (by decide)

/-- C9 counterexample: for the single sample 42, calculateStats returns
42000 in every field (the sample scaled to ms), not 42 as the claim
states. -/
theorem C9_single_sample_counterexample :
    calculateStats [42] ≠ ⟨42, 42, 42⟩ ∧ calculateStats [42] = ⟨42000, 42000, 42000⟩ := by
  constructor
  · intro h
    have h42 : (calculateStats [42]).max = 42 := by rw [h]
    have : (42000 : ℚ) = 42 := by
      rw [show (42000 : ℚ) = (calculateStats [42]).max by norm_num [calculateStats, maxList], h42]
    norm_num at this
  · norm_num [calculateStats, sortedAsc, maxList, p99Index]

/-- C9 amended: the statistics computation never fails — the empty window
yields the all-zero record as a legitimate no-data result, and a window with
the single sample v yields max = average = p99 = v × 1000 (the sample under
the function's seconds-to-milliseconds conversion); in particular all three
statistics coincide for a single sample. -/
theorem C9_stats_total (v : ℚ) :
    calculateStats [] = ⟨0, 0, 0⟩ ∧ calculateStats [v] = ⟨v * 1000, v * 1000, v * 1000⟩ := by
  refine ⟨rfl, ?_⟩
  rcases eq_or_ne v 0 with h | h
  · subst h; norm_num [calculateStats, sortedAsc, maxList, p99Index]
  · norm_num [calculateStats, sortedAsc, maxList, p99Index, h]

/-- C10: whenever the ascending-sorted sample at the p99 index is 0 while the
window contains a positive sample, calculateStats reports p99 equal to the
window maximum (and hence nonzero) — the JavaScript falsy fallback fires on a
zero sample, not only past the end of the window. -/
theorem C10_p99_zero_falls_back_to_max (values : List ℚ)
    (hz : (sortedAsc values).get? (p99Index values.length) = some 0)
    (hpos : ∃ v ∈ values, 0 < v) :
    (calculateStats values).p99 = (calculateStats values).max ∧
    (calculateStats values).p99 ≠ 0 := by
  obtain ⟨v, hv, hvpos⟩ := hpos
  have hne : ¬ values.length = 0 := by
    cases values with
    | nil => cases hv
    | cons a l => simp
  have hmx : 0 < maxList values := lt_of_lt_of_le hvpos (le_maxList hv)
  have hp : (calculateStats values).p99 = maxList values * 1000 := by
    simp only [calculateStats, if_neg hne, hz]
    norm_num
  have hm : (calculateStats values).max = maxList values * 1000 := by
    simp only [calculateStats, if_neg hne]
  refine ⟨hp.trans hm.symm, ?_⟩
  rw [hp]
  positivity

/-- C10 witness: 100 zero samples plus one positive sample (window size 101,
p99 index 99 lands on a zero) — p99 falls back to the maximum 5 (5000 ms). -/
theorem C10_p99_zero_falls_back_to_max_witness :
    (calculateStats window101).p99 = (calculateStats window101).max ∧
    (calculateStats window101).p99 ≠ 0 :=
  C10_p99_zero_falls_back_to_max window101 (by decide) ⟨5, by decide, by decide⟩
theorem mem_dynamic_pricing {db : PriceDB} {row : PriceRow} (h : row ∈ dynamic_pricing db) :
    ∃ r ∈ dpRows db, row = ⟨r.product_id, dpAdjusted r⟩ := by
  rw [dynamic_pricing] at h
  obtain ⟨r, hr, hm⟩ := List.mem_flatMap.1 h
  obtain ⟨p2, hp2, he⟩ := List.mem_map.1 hm
  exact ⟨r, hr, he.symm⟩

theorem mem_dpRows {db : PriceDB} {r : DPRow} (h : r ∈ dpRows db) :
    ∃ p ∈ db.products, ∃ pop ∈ popularityScore db, pop.product_id = p.product_id ∧
      ∃ rp ∈ leftJoinRows ((recentPrices db).filter (fun x => x.fst = p.product_id)),
        ∃ pe ∈ leftJoinRows ((promotionEffect db).filter (fun x => x.fst = p.product_id)),
          ∃ inv ∈ leftJoinRows ((inventoryStatus db).filter (fun x => x.fst = p.product_id)),
            r = mkDPRow p pop rp pe inv := by
  rw [dpRows] at h
  obtain ⟨p, hp, h⟩ := List.mem_flatMap.1 h
  obtain ⟨pop, hpop, h⟩ := List.mem_flatMap.1 h
  obtain ⟨rp, hrp, h⟩ := List.mem_flatMap.1 h
  obtain ⟨pe, hpe, h⟩ := List.mem_flatMap.1 h
  obtain ⟨inv, hinv, he⟩ := List.mem_map.1 h
  have hpopf := List.mem_filter.1 hpop
  refine ⟨p, hp, pop, hpopf.1, by simpa using hpopf.2, rp, hrp, pe, hpe, inv, hinv, he.symm⟩

theorem leftJoinRows_cases {α : Type} {l : List α} {x : Option α} (h : x ∈ leftJoinRows l) :
    (x = none ∧ l = []) ∨ ∃ a ∈ l, x = some a := by
  cases l with
  | nil =>
    left
    rw [leftJoinRows, List.mem_singleton] at h
    exact ⟨h, rfl⟩
  | cons b bs =>
    right
    rw [leftJoinRows] at h
    obtain ⟨a, ha, he⟩ := List.mem_map.1 h
    exact ⟨a, ha, he.symm⟩

theorem filter_key_singleton {α : Type} (key : α → ℤ) (l : List α)
    (hnd : (l.map key).Nodup) {p : α} (hp : p ∈ l) :
    l.filter (fun q => key q = key p) = [p] := by
  induction l with
  | nil => cases hp
  | cons a l ih =>
    rw [List.map_cons, List.nodup_cons] at hnd
    rw [List.filter_cons]
    rcases List.mem_cons.1 hp with h | h
    · subst h
      rw [if_pos (by simp)]
      have hnil : l.filter (fun q => key q = key p) = [] := by
        rw [List.filter_eq_nil_iff]
        intro b hb hkb
        exact hnd.1 (List.mem_map.2 ⟨b, hb, of_decide_eq_true hkb⟩)
      rw [hnil]
    · have hka : ¬ key a = key p := fun hk =>
        hnd.1 (hk ▸ List.mem_map.2 ⟨p, h, rfl⟩)
      rw [if_neg (by simpa using hka)]
      exact ih hnd.2 h

theorem salesPids_iff (db : PriceDB) (pid : ℤ) :
    pid ∈ salesPids db ↔ ¬ salesOf db pid = [] := by
  rw [salesPids, List.mem_dedup]
  constructor
  · intro h
    obtain ⟨s, hs, he⟩ := List.mem_map.1 h
    have : s ∈ salesOf db pid :=
      List.mem_filter.2 ⟨hs, by simpa using he⟩
    exact List.ne_nil_of_mem this
  · intro h
    obtain ⟨s, hs⟩ := List.exists_mem_of_ne_nil _ h
    have hf := List.mem_filter.1 hs
    exact List.mem_map.2 ⟨s, hf.1, by simpa using hf.2⟩

theorem mem_recentPrices {db : PriceDB} {x : ℤ × ℚ} (h : x ∈ recentPrices db) :
    x.fst ∈ salesPids db ∧
      x = (x.fst, ((recentSales db x.fst).map (fun s => s.price)).sum /
        ((recentSales db x.fst).length : ℚ)) := by
  rw [recentPrices] at h
  obtain ⟨k, hk, he⟩ := List.mem_map.1 h
  have hfst : x.fst = k := by rw [← he]
  subst hfst
  exact ⟨hk, he.symm⟩

theorem recentPrices_mem_of_key (db : PriceDB) (pid : ℤ) (h : pid ∈ salesPids db) :
    (pid, ((recentSales db pid).map (fun s => s.price)).sum /
      ((recentSales db pid).length : ℚ)) ∈ recentPrices db := by
  rw [recentPrices]
  exact List.mem_map.2 ⟨pid, h, rfl⟩

theorem mem_popKeys {db : PriceDB} {k : ℤ × ℤ} (hk : k ∈ popKeys db) :
    (∃ s ∈ db.sales, s.product_id = k.fst) ∧
      ∃ q ∈ db.products, q.product_id = k.fst ∧ q.category_id = k.snd := by
  have h := List.mem_dedup.1 hk
  rw [popJoin] at h
  obtain ⟨s, hs, hm⟩ := List.mem_flatMap.1 h
  obtain ⟨q, hq, he⟩ := List.mem_map.1 hm
  have hqf := List.mem_filter.1 hq
  have h1 : s.product_id = k.fst := by rw [← he]
  have h2 : q.category_id = k.snd := by rw [← he]
  exact ⟨⟨s, hs, h1⟩, q, hqf.1, by rw [of_decide_eq_true hqf.2, h1], h2⟩

theorem mem_popularityScore {db : PriceDB} {pop : PopRow} (h : pop ∈ popularityScore db) :
    ∃ k ∈ popKeys db, pop = ⟨k.fst, k.snd, popCount db k, popRank db k⟩ := by
  rw [popularityScore] at h
  obtain ⟨k, hk, he⟩ := List.mem_map.1 h
  exact ⟨k, hk, he.symm⟩

theorem invPids_iff (db : PriceDB) (pid : ℤ) :
    pid ∈ invPids db ↔ ¬ db.inventory.filter (fun i => i.product_id = pid) = [] := by
  rw [invPids, List.mem_dedup]
  constructor
  · intro h
    obtain ⟨i, hi, he⟩ := List.mem_map.1 h
    exact List.ne_nil_of_mem (List.mem_filter.2 ⟨hi, by simpa using he⟩)
  · intro h
    obtain ⟨i, hi⟩ := List.exists_mem_of_ne_nil _ h
    have hf := List.mem_filter.1 hi
    exact List.mem_map.2 ⟨i, hf.1, by simpa using hf.2⟩

theorem mem_inventoryStatus {db : PriceDB} {x : ℤ × ℕ} (h : x ∈ inventoryStatus db) :
    x.fst ∈ invPids db ∧ x = (x.fst, stockRank db x.fst) := by
  rw [inventoryStatus] at h
  obtain ⟨k, hk, he⟩ := List.mem_map.1 h
  have hfst : x.fst = k := by rw [← he]
  subst hfst
  exact ⟨hk, he.symm⟩

theorem mem_promotionEffect {db : PriceDB} {x : ℤ × ℚ} (h : x ∈ promotionEffect db) :
    x.fst ∈ ((promoJoin db).map Prod.fst).dedup ∧
      x = (x.fst, minimumOf (((promoJoin db).filter
        (fun r => r.fst = x.fst)).map Prod.snd)) := by
  rw [promotionEffect] at h
  obtain ⟨k, hk, he⟩ := List.mem_map.1 h
  have hfst : x.fst = k := by rw [← he]
  subst hfst
  exact ⟨hk, he.symm⟩

theorem minimumOf_mem {l : List ℚ} (h : ¬ l = []) : minimumOf l ∈ l := by
  cases l with
  | nil => exact absurd rfl h
  | cons x xs =>
    rw [minimumOf]
    clear h
    induction xs generalizing x with
    | nil => exact List.mem_singleton.2 rfl
    | cons y ys ih =>
      rw [List.foldl_cons]
      rcases List.mem_cons.1 (ih (Min.min x y)) with hm | hm
      · rcases min_cases x y with ⟨he, _⟩ | ⟨he, _⟩
        · exact List.mem_cons.2 (Or.inl (hm.trans he))
        · exact List.mem_cons.2 (Or.inr (List.mem_cons.2 (Or.inl (hm.trans he))))
      · exact List.mem_cons.2 (Or.inr (List.mem_cons.2 (Or.inr hm)))

theorem rank_cases (n : ℕ) (hn : 1 ≤ n) (a b c : ℚ) :
    (if n ≤ 3 then a else if 4 ≤ n ∧ n ≤ 10 then b else c) =
    (if 1 ≤ n ∧ n ≤ 3 then a else if 4 ≤ n ∧ n ≤ 10 then b else c) := by
  by_cases h : n ≤ 3
  · rw [if_pos h, if_pos ⟨hn, h⟩]
  · rw [if_neg h, if_neg (fun hc : 1 ≤ n ∧ n ≤ 3 => h hc.2)]

theorem promoJoin_filter_map (prods : List Product) (proms : List Promotion) (p : Product)
    (hsing : prods.filter (fun q => q.product_id = p.product_id) = [p]) :
    ((proms.flatMap (fun pr =>
        if pr.active then
          (prods.filter (fun q => q.product_id = pr.product_id)).map
            (fun q => (q.product_id, pr.promotion_discount))
        else [])).filter (fun r => r.fst = p.product_id)).map Prod.snd =
      (proms.filter (fun pr => pr.active ∧ pr.product_id = p.product_id)).map
        (fun pr => pr.promotion_discount) := by
  induction proms with
  | nil => rfl
  | cons pr proms ih =>
    rw [List.flatMap_cons, List.filter_append, List.map_append, ih, List.filter_cons]
    by_cases ha : pr.active = true
    · by_cases hid : pr.product_id = p.product_id
      · rw [if_pos ha, hid, hsing, if_pos (by simp [ha, hid]), List.map_cons]
        simp
      · rw [if_pos ha]
        have hnil : (((prods.filter (fun q => q.product_id = pr.product_id)).map
            (fun q => (q.product_id, pr.promotion_discount))).filter
              (fun r => r.fst = p.product_id)) = [] := by
          rw [List.filter_eq_nil_iff]
          intro r hr hcond
          obtain ⟨q, hq, he⟩ := List.mem_map.1 hr
          have h1 : r.fst = q.product_id := by rw [← he]
          have h2 := of_decide_eq_true (List.mem_filter.1 hq).2
          exact hid (by rw [← h2, ← h1, of_decide_eq_true hcond])
        rw [hnil, if_neg (by simp [hid])]
        simp
    · rw [if_neg ha, if_neg (by simp [ha])]
      simp

theorem dpAdjusted_some (p : Product) (pop : PopRow) (x : ℤ × ℚ) (pe : Option (ℤ × ℚ))
    (inv : Option (ℤ × ℕ)) :
    dpAdjusted (mkDPRow p pop (some x) pe inv) =
      some (p.base_price * (mkDPRow p pop (some x) pe inv).popularity_adjustment *
        (mkDPRow p pop (some x) pe inv).promotion_discount *
        (mkDPRow p pop (some x) pe inv).stock_adjustment *
        (if x.snd < p.base_price then 1 + (p.base_price - x.snd) / x.snd
         else 1 - (x.snd - p.base_price) / x.snd) *
        (mkDPRow p pop (some x) pe inv).additional_discount) := rfl

/-- C1: for every row of the derived-value output (on states satisfying the
products primary-key constraint), the adjusted value equals the base value
times exactly five factors in the stated roles: the popularity adjustment
(1.2 for in-category transaction-count rank 1-3, 1.1 for 4-10, 0.9
otherwise), the promotion adjustment (1 minus the minimum active discount
percentage over 100 when an active promotion exists, else 1), the stock
adjustment (1.1 for global stock rank 1-3, 1.05 for 4-10, else 1), the
demand multiplier comparing the base value with the mean of the last 10
transaction prices, and the 0.8 name-pattern override (else 1.0). -/
theorem C1_adjusted_price_five_factors (db : PriceDB)
    (hnd : (db.products.map (fun q => q.product_id)).Nodup) :
    ∀ row ∈ dynamic_pricing db, ∃ p ∈ db.products,
      row.product_id = p.product_id ∧
      row.adjusted_price = some (p.base_price * popularityFactor db p *
        promotionFactor db p.product_id * stockFactor db p.product_id *
        demandFactor db p * overrideFactor p) := by
  intro row hrow
  obtain ⟨r, hr, hrow_eq⟩ := mem_dynamic_pricing hrow
  obtain ⟨p, hp, pop, hpop, hpid, rp, hrp, pe, hpe, inv, hinv, hre⟩ := mem_dpRows hr
  subst hre
  subst hrow_eq
  refine ⟨p, hp, rfl, ?_⟩
  obtain ⟨k, hk, hpopeq⟩ := mem_popularityScore hpop
  obtain ⟨⟨s, hs, hsid⟩, q, hq, hq1, hq2⟩ := mem_popKeys hk
  have hkfst : k.fst = p.product_id := by rw [← hpid, hpopeq]
  have hqp : q = p := List.inj_on_of_nodup_map hnd hq hp (by rw [hq1, hkfst])
  have hksnd : k.snd = p.category_id := by rw [← hq2, hqp]
  have hkeq : k = (p.product_id, p.category_id) := Prod.ext hkfst hksnd
  have hprank : pop.popularity_rank = popRank db (p.product_id, p.category_id) := by
    rw [hpopeq, hkeq]
  have hrank1 : 1 ≤ pop.popularity_rank := by
    rw [hpopeq]
    exact Nat.le_add_right 1 _
  have h1 : (mkDPRow p pop rp pe inv).popularity_adjustment = popularityFactor db p := by
    show (if pop.popularity_rank ≤ 3 then (12/10 : ℚ)
        else if 4 ≤ pop.popularity_rank ∧ pop.popularity_rank ≤ 10 then 11/10 else 9/10) = _
    rw [rank_cases _ hrank1, hprank]
    rfl
  have h5 : (mkDPRow p pop rp pe inv).additional_discount = overrideFactor p := rfl
  -- the recent-price left join is always populated for rows of the view
  rcases leftJoinRows_cases hrp with ⟨hnone, hfe⟩ | ⟨x, hx, hxe⟩
  · exfalso
    have hpidmem : p.product_id ∈ salesPids db := by
      rw [salesPids, List.mem_dedup]
      exact List.mem_map.2 ⟨s, hs, by rw [hsid, hkfst]⟩
    have hmemrp := recentPrices_mem_of_key db p.product_id hpidmem
    have hmemf : (p.product_id, ((recentSales db p.product_id).map (fun s => s.price)).sum /
        ((recentSales db p.product_id).length : ℚ)) ∈
        (recentPrices db).filter (fun x => x.fst = p.product_id) :=
      List.mem_filter.2 ⟨hmemrp, by simp⟩
    rw [hfe] at hmemf
    cases hmemf
  subst hxe
  have hxf := List.mem_filter.1 hx
  have hxfst : x.fst = p.product_id := of_decide_eq_true hxf.2
  obtain ⟨hxsales, hxeq⟩ := mem_recentPrices hxf.1
  have hsne : ¬ salesOf db p.product_id = [] :=
    (salesPids_iff db p.product_id).1 (hxfst ▸ hxsales)
  have hmean : meanRecentPrice db p.product_id =
      some (((recentSales db p.product_id).map (fun s => s.price)).sum /
        ((recentSales db p.product_id).length : ℚ)) := by
    rw [meanRecentPrice, if_neg hsne]
  have hxsnd : x.snd = ((recentSales db p.product_id).map (fun s => s.price)).sum /
      ((recentSales db p.product_id).length : ℚ) := by
    conv_lhs => rw [hxeq]
    rw [hxfst]
  have h4 : (if x.snd < p.base_price then 1 + (p.base_price - x.snd) / x.snd
      else 1 - (x.snd - p.base_price) / x.snd) = demandFactor db p := by
    rw [demandFactor, hmean, hxsnd]
  have h2 : (mkDPRow p pop (some x) pe inv).promotion_discount =
      promotionFactor db p.product_id := by
    rcases leftJoinRows_cases hpe with ⟨hpenone, hpfe⟩ | ⟨y, hy, hye⟩
    · subst hpenone
      have had : activeDiscounts db p.product_id = [] := by
        by_contra hne
        rw [activeDiscounts] at hne
        have hfne : ¬ db.promotions.filter
            (fun pr => pr.active ∧ pr.product_id = p.product_id) = [] := by
          intro hcon
          exact hne (by rw [hcon]; rfl)
        obtain ⟨pr, hpr⟩ := List.exists_mem_of_ne_nil _ hfne
        have hprf := List.mem_filter.1 hpr
        have hcond := of_decide_eq_true hprf.2
        have hjoin : (p.product_id, pr.promotion_discount) ∈ promoJoin db := by
          rw [promoJoin]
          refine List.mem_flatMap.2 ⟨pr, hprf.1, ?_⟩
          rw [if_pos hcond.1]
          exact List.mem_map.2 ⟨p, List.mem_filter.2 ⟨hp, by simp [hcond.2]⟩, rfl⟩
        have hkeymem : p.product_id ∈ ((promoJoin db).map Prod.fst).dedup :=
          List.mem_dedup.2 (List.mem_map.2 ⟨(p.product_id, pr.promotion_discount), hjoin, rfl⟩)
        have hpemem : (p.product_id, minimumOf (((promoJoin db).filter
            (fun r => r.fst = p.product_id)).map Prod.snd)) ∈ promotionEffect db := by
          rw [promotionEffect]
          exact List.mem_map.2 ⟨p.product_id, hkeymem, rfl⟩
        have hmemf : (p.product_id, minimumOf (((promoJoin db).filter
            (fun r => r.fst = p.product_id)).map Prod.snd)) ∈
            (promotionEffect db).filter (fun x => x.fst = p.product_id) :=
          List.mem_filter.2 ⟨hpemem, by simp⟩
        rw [hpfe] at hmemf
        cases hmemf
      show (1 : ℚ) = promotionFactor db p.product_id
      rw [promotionFactor, if_pos had]
    · subst hye
      have hyf := List.mem_filter.1 hy
      have hyfst : y.fst = p.product_id := of_decide_eq_true hyf.2
      obtain ⟨hykey, hyeq⟩ := mem_promotionEffect hyf.1
      have hsing : db.products.filter (fun q => q.product_id = p.product_id) = [p] :=
        filter_key_singleton (fun q => q.product_id) db.products hnd hp
      have hlist : ((promoJoin db).filter (fun r => r.fst = p.product_id)).map Prod.snd =
          activeDiscounts db p.product_id :=
        promoJoin_filter_map db.products db.promotions p hsing
      have hne : ¬ activeDiscounts db p.product_id = [] := by
        rw [← hlist]
        have hymem : y.fst ∈ (promoJoin db).map Prod.fst := List.mem_dedup.1 hykey
        obtain ⟨row2, hrow2, hrow2e⟩ := List.mem_map.1 hymem
        intro hmapnil
        have hfnil : (promoJoin db).filter (fun r => r.fst = p.product_id) = [] :=
          List.map_eq_nil_iff.1 hmapnil
        have hmemf : row2 ∈ (promoJoin db).filter (fun r => r.fst = p.product_id) :=
          List.mem_filter.2 ⟨hrow2, by simp [hrow2e, hyfst]⟩
        rw [hfnil] at hmemf
        cases hmemf
      have hyv : y.snd = minimumOf (activeDiscounts db p.product_id) := by
        conv_lhs => rw [hyeq]
        rw [hyfst, hlist]
      show (1 - y.snd / 100 : ℚ) = promotionFactor db p.product_id
      rw [promotionFactor, if_neg hne, hyv]
  have h3 : (mkDPRow p pop (some x) pe inv).stock_adjustment =
      stockFactor db p.product_id := by
    rcases leftJoinRows_cases hinv with ⟨hinone, hife⟩ | ⟨z, hz, hze⟩
    · subst hinone
      have hnotin : ¬ p.product_id ∈ invPids db := by
        intro hmem
        have hmemis : (p.product_id, stockRank db p.product_id) ∈ inventoryStatus db := by
          rw [inventoryStatus]
          exact List.mem_map.2 ⟨p.product_id, hmem, rfl⟩
        have hmemf : (p.product_id, stockRank db p.product_id) ∈
            (inventoryStatus db).filter (fun x => x.fst = p.product_id) :=
          List.mem_filter.2 ⟨hmemis, by simp⟩
        rw [hife] at hmemf
        cases hmemf
      have hinvf : db.inventory.filter (fun i => i.product_id = p.product_id) = [] := by
        by_contra hne2
        exact hnotin ((invPids_iff db p.product_id).2 hne2)
      show (1 : ℚ) = stockFactor db p.product_id
      rw [stockFactor, if_pos hinvf]
    · subst hze
      have hzf := List.mem_filter.1 hz
      have hzfst : z.fst = p.product_id := of_decide_eq_true hzf.2
      obtain ⟨hzpids, hzeq⟩ := mem_inventoryStatus hzf.1
      have hzsnd : z.snd = stockRank db p.product_id := by
        conv_lhs => rw [hzeq]
        rw [hzfst]
      have hinvf : ¬ db.inventory.filter (fun i => i.product_id = p.product_id) = [] :=
        (invPids_iff db p.product_id).1 (hzfst ▸ hzpids)
      have hz1 : 1 ≤ z.snd := by
        rw [hzsnd]
        exact Nat.le_add_right 1 _
      show (if z.snd ≤ 3 then (11/10 : ℚ)
          else if 4 ≤ z.snd ∧ z.snd ≤ 10 then 21/20 else 1) = stockFactor db p.product_id
      rw [rank_cases _ hz1, hzsnd, stockFactor, if_neg hinvf]
  rw [dpAdjusted_some, h1, h2, h3, h4, h5]

theorem mem_promoJoin {db : PriceDB} {r : ℤ × ℚ} (h : r ∈ promoJoin db) :
    ∃ pr ∈ db.promotions, pr.active = true ∧ r.snd = pr.promotion_discount := by
  rw [promoJoin] at h
  obtain ⟨pr, hpr, hm⟩ := List.mem_flatMap.1 h
  by_cases ha : pr.active = true
  · rw [if_pos ha] at hm
    obtain ⟨q, hq, he⟩ := List.mem_map.1 hm
    exact ⟨pr, hpr, ha, by rw [← he]⟩
  · rw [if_neg ha] at hm
    cases hm

/-- C6 amended: an item with no transaction (sales) history receives no
derived value at all — the view inner-joins the popularity aggregate, whose
rows all stem from sales, so no output row carries the id of a product
without sales. -/
theorem C6_no_sales_item_absent (db : PriceDB) (pid : ℤ)
    (hs : db.sales.filter (fun s => s.product_id = pid) = []) :
    ∀ row ∈ dynamic_pricing db, ¬ row.product_id = pid := by
  intro row hrow hpid
  obtain ⟨r, hr, he⟩ := mem_dynamic_pricing hrow
  obtain ⟨p, hp, pop, hpop, hpopid, rp, hrp, pe, hpe, inv, hinv, hre⟩ := mem_dpRows hr
  obtain ⟨k, hk, hpopeq⟩ := mem_popularityScore hpop
  obtain ⟨⟨s, hsmem, hsid⟩, _⟩ := mem_popKeys hk
  have hkfst : k.fst = pid := by
    have h1 : pop.product_id = k.fst := by rw [hpopeq]
    have h2 : row.product_id = r.product_id := by rw [he]
    have h3 : r.product_id = p.product_id := by rw [hre]; rfl
    rw [← h1, hpopid, ← h3, ← h2, hpid]
  have hsf : s ∈ db.sales.filter (fun s2 => s2.product_id = pid) :=
    List.mem_filter.2 ⟨hsmem, by simp [hsid, hkfst]⟩
  rw [hs] at hsf
  cases hsf

/-- C7 amended: the derived value is non-negative on every state in which
active promotion discounts are at most 100 percent, sale prices are
positive, and base values are non-negative — each of the five factors and
the base value is then non-negative. -/
theorem C7_nonneg_under_bounds (db : PriceDB)
    (hdisc : ∀ pr ∈ db.promotions, pr.active = true → pr.promotion_discount ≤ 100)
    (hprice : ∀ s ∈ db.sales, 0 < s.price)
    (hbase : ∀ p ∈ db.products, 0 ≤ p.base_price) :
    ∀ row ∈ dynamic_pricing db, ∀ v, row.adjusted_price = some v → 0 ≤ v := by
  intro row hrow v hv
  obtain ⟨r, hr, he⟩ := mem_dynamic_pricing hrow
  obtain ⟨p, hp, pop, hpop, hpid, rp, hrp, pe, hpe, inv, hinv, hre⟩ := mem_dpRows hr
  subst hre
  subst he
  rcases leftJoinRows_cases hrp with ⟨hnone, hfe⟩ | ⟨x, hx, hxe⟩
  · subst hnone
    rw [show (⟨(mkDPRow p pop none pe inv).product_id,
        dpAdjusted (mkDPRow p pop none pe inv)⟩ : PriceRow).adjusted_price = none from rfl] at hv
    cases hv
  subst hxe
  have hxf := List.mem_filter.1 hx
  have hxfst : x.fst = p.product_id := of_decide_eq_true hxf.2
  obtain ⟨hxsales, hxeq⟩ := mem_recentPrices hxf.1
  -- the recent-sales window is non-empty and all its prices are positive
  have hsne : ¬ salesOf db x.fst = [] := (salesPids_iff db x.fst).1 hxsales
  have hrsne : ¬ recentSales db x.fst = [] := by
    rw [recentSales]
    intro hcon
    rcases List.take_eq_nil_iff.1 hcon with h10 | hsortnil
    · cases h10
    · have : (salesOf db x.fst).length = 0 := by
        rw [← List.length_insertionSort (fun a b => b.sale_date ≤ a.sale_date) (salesOf db x.fst),
          hsortnil]
        rfl
      exact hsne (List.length_eq_zero.1 this)
  have hposavg : 0 < x.snd := by
    have hsum : 0 < ((recentSales db x.fst).map (fun s => s.price)).sum := by
      apply List.sum_pos
      · intro a ha
        obtain ⟨s, hsmem, hse⟩ := List.mem_map.1 ha
        have hs1 : s ∈ (salesOf db x.fst).insertionSort (fun a b => b.sale_date ≤ a.sale_date) :=
          List.take_subset 10 _ hsmem
        have hs2 : s ∈ salesOf db x.fst := (List.mem_insertionSort _).1 hs1
        have hs3 : s ∈ db.sales := (List.mem_filter.1 hs2).1
        exact hse ▸ hprice s hs3
      · intro hcon
        exact hrsne (List.map_eq_nil_iff.1 hcon)
    have hlen : 0 < ((recentSales db x.fst).length : ℚ) := by
      have : 0 < (recentSales db x.fst).length := List.length_pos.2 hrsne
      exact_mod_cast this
    have hxv : x.snd = ((recentSales db x.fst).map (fun s => s.price)).sum /
        ((recentSales db x.fst).length : ℚ) := by
      conv_lhs => rw [hxeq]
    rw [hxv]
    exact div_pos hsum hlen
  have hbasep : 0 ≤ p.base_price := hbase p hp
  rw [show (⟨(mkDPRow p pop (some x) pe inv).product_id,
      dpAdjusted (mkDPRow p pop (some x) pe inv)⟩ : PriceRow).adjusted_price =
      dpAdjusted (mkDPRow p pop (some x) pe inv) from rfl, dpAdjusted_some] at hv
  have hveq := Option.some.inj hv
  rw [← hveq]
  have hA1 : 0 ≤ (mkDPRow p pop (some x) pe inv).popularity_adjustment := by
    show 0 ≤ (if pop.popularity_rank ≤ 3 then (12/10 : ℚ)
        else if 4 ≤ pop.popularity_rank ∧ pop.popularity_rank ≤ 10 then 11/10 else 9/10)
    split
    · norm_num
    · split
      · norm_num
      · norm_num
  have hA2 : 0 ≤ (mkDPRow p pop (some x) pe inv).promotion_discount := by
    rcases leftJoinRows_cases hpe with ⟨hpenone, hpfe⟩ | ⟨y, hy, hye⟩
    · subst hpenone
      show (0 : ℚ) ≤ 1
      norm_num
    · subst hye
      show (0 : ℚ) ≤ 1 - y.snd / 100
      have hyf := List.mem_filter.1 hy
      obtain ⟨hykey, hyeq⟩ := mem_promotionEffect hyf.1
      have hLne : ¬ (((promoJoin db).filter (fun r => r.fst = y.fst)).map Prod.snd) = [] := by
        have hymem : y.fst ∈ (promoJoin db).map Prod.fst := List.mem_dedup.1 hykey
        obtain ⟨row2, hrow2, hrow2e⟩ := List.mem_map.1 hymem
        intro hmapnil
        have hfnil : (promoJoin db).filter (fun r => r.fst = y.fst) = [] :=
          List.map_eq_nil_iff.1 hmapnil
        have hmemf : row2 ∈ (promoJoin db).filter (fun r => r.fst = y.fst) :=
          List.mem_filter.2 ⟨hrow2, by simp [hrow2e]⟩
        rw [hfnil] at hmemf
        cases hmemf
      have hmin := minimumOf_mem hLne
      obtain ⟨row2, hrow2, hrow2e⟩ := List.mem_map.1 hmin
      have hrj := (List.mem_filter.1 hrow2).1
      obtain ⟨pr, hprm, hpra, hprd⟩ := mem_promoJoin hrj
      have hd100 : minimumOf (((promoJoin db).filter (fun r => r.fst = y.fst)).map Prod.snd) ≤ 100 := by
        rw [← hrow2e, hprd]
        exact hdisc pr hprm hpra
      have hysnd : y.snd = minimumOf (((promoJoin db).filter (fun r => r.fst = y.fst)).map Prod.snd) := by
        conv_lhs => rw [hyeq]
      rw [hysnd]
      have : minimumOf (((promoJoin db).filter (fun r => r.fst = y.fst)).map Prod.snd) / 100 ≤ 1 := by
        rw [div_le_one (by norm_num : (0:ℚ) < 100)]
        exact hd100
      linarith
  have hA3 : 0 ≤ (mkDPRow p pop (some x) pe inv).stock_adjustment := by
    rcases inv with _ | z
    · show (0 : ℚ) ≤ 1
      norm_num
    · show 0 ≤ (if z.snd ≤ 3 then (11/10 : ℚ)
        else if 4 ≤ z.snd ∧ z.snd ≤ 10 then 21/20 else 1)
      split
      · norm_num
      · split
        · norm_num
        · norm_num
  have hD : 0 ≤ (if x.snd < p.base_price then 1 + (p.base_price - x.snd) / x.snd
      else 1 - (x.snd - p.base_price) / x.snd) := by
    split
    · next hlt =>
      have : 0 ≤ (p.base_price - x.snd) / x.snd :=
        div_nonneg (sub_nonneg.2 (le_of_lt hlt)) (le_of_lt hposavg)
      linarith
    · next hge =>
      have : (x.snd - p.base_price) / x.snd ≤ 1 := by
        rw [div_le_one hposavg]
        exact sub_le_self _ hbasep
      linarith
  have hA4 : 0 ≤ (mkDPRow p pop (some x) pe inv).additional_discount := by
    show 0 ≤ (if nameHasCheap p.product_name then (8/10 : ℚ) else 1)
    split
    · norm_num
    · norm_num
  exact mul_nonneg (mul_nonneg (mul_nonneg (mul_nonneg (mul_nonneg hbasep hA1) hA2) hA3) hD) hA4

set_option maxRecDepth 8000 in
theorem dynamic_pricing_c1db : dynamic_pricing c1db = [⟨1, some 120⟩] := by
  norm_num [dynamic_pricing, dpRows, dpAdjusted, mkDPRow, popularityScore, popKeys, popJoin,
    popCount, popRank, recentPrices, salesPids, salesOf, recentSales, promotionEffect,
    promoJoin, minimumOf, inventoryStatus, invPids, leftJoinRows, c1db,
    show nameHasCheap "Apple" = false from by decide,
    List.dedup_cons_of_not_mem, List.dedup_nil, List.insertionSort, List.orderedInsert,
    List.replicate]

/-- C1 witness: the single product of c1db — popularity rank 1, no active
promotion, no inventory row, demand multiplier 1 — receives the value
100 × 1.2 = 120, written as the five-factor product. -/
theorem C1_adjusted_price_five_factors_witness :
    ∃ p ∈ c1db.products, (⟨1, some 120⟩ : PriceRow).product_id = p.product_id ∧
      (⟨1, some 120⟩ : PriceRow).adjusted_price = some (p.base_price *
        popularityFactor c1db p * promotionFactor c1db p.product_id *
        stockFactor c1db p.product_id * demandFactor c1db p * overrideFactor p) :=
  C1_adjusted_price_five_factors c1db (by decide) ⟨1, some 120⟩
    (by rw [dynamic_pricing_c1db]; exact List.mem_singleton.2 rfl)

/-- C4: the materialized view embedding and the on-demand view embedding
are the same function of the database state — the two query texts are
identical, so for every state they produce exactly the same rows of
(product_id, adjusted_price). -/
theorem C4_snapshot_equals_on_demand (db : PriceDB) :
    mv_dynamic_pricing db = dynamic_pricing db := rfl

/-- C6 counterexample: in the claim's exact scenario — base value 100, one
active 10 percent promotion, global stock rank 5, no sales history, no
override — the derived-value output is empty: the item receives no value at
all, rather than 113.4. -/
theorem C6_no_sales_counterexample :
    salesOf c6db 1 = [] ∧ activeDiscounts c6db 1 = [10] ∧ stockRank c6db 1 = 5 ∧
    dynamic_pricing c6db = [] := by
  refine ⟨rfl, by decide, by decide, rfl⟩

set_option maxRecDepth 8000 in
theorem dynamic_pricing_c6wdb : dynamic_pricing c6wdb = [⟨2, some 66⟩] := by
  norm_num [dynamic_pricing, dpRows, dpAdjusted, mkDPRow, popularityScore, popKeys, popJoin,
    popCount, popRank, recentPrices, salesPids, salesOf, recentSales, promotionEffect,
    promoJoin, minimumOf, inventoryStatus, invPids, stockRank, totalStock, leftJoinRows, c6wdb,
    show nameHasCheap "Apple" = false from by decide,
    show nameHasCheap "Banana" = false from by decide,
    List.dedup_cons_of_not_mem, List.dedup_nil, List.insertionSort, List.orderedInsert,
    List.replicate]

/-- C6 amended, witness: on c6wdb the output is non-empty (product 2 sold
and is priced), yet its single row does not carry product 1, which has no
sales. -/
theorem C6_no_sales_item_absent_witness :
    c6wdb.sales.filter (fun s => s.product_id = 1) = [] ∧
    (⟨2, some 66⟩ : PriceRow) ∈ dynamic_pricing c6wdb ∧
    ¬ (⟨2, some 66⟩ : PriceRow).product_id = 1 :=
  ⟨rfl, by rw [dynamic_pricing_c6wdb]; exact List.mem_singleton.2 rfl,
    C6_no_sales_item_absent c6wdb 1 rfl ⟨2, some 66⟩
      (by rw [dynamic_pricing_c6wdb]; exact List.mem_singleton.2 rfl)⟩

/-- C7 counterexample: with an active promotion of 200 percent (admitted by
the schema), the promotion adjustment is 1 − 200/100 = −1 and the output
value is −120 < 0. -/
theorem C7_negative_price_counterexample :
    dynamic_pricing c7db = [⟨1, some (-120)⟩] ∧ ((-120 : ℚ) < 0) := by
  constructor
  · norm_num [dynamic_pricing, dpRows, dpAdjusted, mkDPRow, popularityScore, popKeys, popJoin,
      popCount, popRank, recentPrices, salesPids, salesOf, recentSales, promotionEffect,
      promoJoin, minimumOf, inventoryStatus, invPids, leftJoinRows, c7db,
      show nameHasCheap "Apple" = false from by decide,
      List.dedup_cons_of_not_mem, List.dedup_nil, List.insertionSort, List.orderedInsert,
      List.replicate]
  · norm_num

/-- C7 amended, witness at c1db: its single output row holds the value 120,
and the theorem yields its non-negativity. -/
theorem C7_nonneg_under_bounds_witness :
    (⟨1, some 120⟩ : PriceRow) ∈ dynamic_pricing c1db ∧ (0 : ℚ) ≤ 120 :=
  ⟨by rw [dynamic_pricing_c1db]; exact List.mem_singleton.2 rfl,
    C7_nonneg_under_bounds c1db (by decide) (by decide) (by decide) ⟨1, some 120⟩
      (by rw [dynamic_pricing_c1db]; exact List.mem_singleton.2 rfl) 120 rfl⟩

